import Mathlib

/-!
Shallow embedding of the bouncing-ball fixed-timestep simulation
(`src/main.rs`).  Machine floats (`f64`, `f32`) are modelled as exact
rationals; `usize` is modelled as `Nat`, with the one fallible spot —
the `usize` subtraction `expected_tick_count - self.tick_count` in
`do_tick`, which panics on underflow in debug builds — modelled by an
`Option` result (`none` = panic).  The Rust cast
`(f: f64).floor() as usize` saturates negatives to 0, modelled by
`Int.toNat`.
-/

/-- The capability set of trait `TickDrawExpire` (`Tick + Draw + Expire`):
`on_tick` advances an object's state by one fixed-length step, `is_expired`
reports whether the object is eligible for removal.  `on_draw` has no
effect on simulation state, so it carries no function here; draw dispatch
is modelled by the ordered list of objects it is invoked on. -/
structure TickDrawExpire (A : Type) where
  on_tick : ℚ → A → A
  is_expired : A → Bool

/-- `struct Simulation` from `engine::simulator`. -/
structure Simulation (A : Type) where
  seconds_per_tick : ℚ
  objects : List A
  tick_count : ℕ
deriving DecidableEq, Repr

/-- `Simulation::new(seconds_per_tick)`: no guard on the argument;
empty object collection, tick count 0. -/
def Simulation.new (A : Type) (seconds_per_tick : ℚ) : Simulation A :=
  { seconds_per_tick := seconds_per_tick, objects := [], tick_count := 0 }

/-- `Simulation::get_tick_count`. -/
def Simulation.get_tick_count (s : Simulation A) : ℕ :=
  s.tick_count

/-- `Simulation::get_object_count` (`self.objects.len()`). -/
def Simulation.get_object_count (s : Simulation A) : ℕ :=
  s.objects.length

/-- The value `(time / self.seconds_per_tick).floor() as usize` computed at
the top of `Simulation::do_tick`; the `as usize` cast saturates negative
floats to 0 (`Int.toNat`). -/
def Simulation.expected_tick_count (s : Simulation A) (time : ℚ) : ℕ :=
  (Int.floor (time / s.seconds_per_tick)).toNat

/-- The local `ticks_to_perform = expected_tick_count - self.tick_count`
of `Simulation::do_tick`, as the mathematical difference would be when no
underflow occurs (`Nat` truncated subtraction coincides with it there). -/
def Simulation.ticks_to_perform (s : Simulation A) (time : ℚ) : ℕ :=
  s.expected_tick_count time - s.tick_count

/-- The loop body of `do_tick` iterated `n` times: each iteration performs
one full tick pass `self.objects.iter_mut().for_each(|o| o.on_tick(spt))`,
i.e. updates every object in place, in collection order. -/
def tick_passes (f : A → A) : ℕ → List A → List A
  | 0, os => os
  | Nat.succ n, os => tick_passes f n (os.map f)

/-- `Simulation::do_tick(time)`.  The subtraction
`expected_tick_count - self.tick_count` is on `usize`; when
`expected_tick_count < self.tick_count` it underflows (debug panic /
release wraparound), modelled as `none`.  Otherwise the loop runs
`ticks_to_perform + 1` passes and `tick_count += ticks_to_perform`. -/
def Simulation.do_tick (c : TickDrawExpire A) (s : Simulation A) (time : ℚ) :
    Option (Simulation A) :=
  if s.expected_tick_count time < s.tick_count then
    none
  else
    some { s with
           objects := tick_passes (c.on_tick s.seconds_per_tick)
                        (s.ticks_to_perform time + 1) s.objects,
           tick_count := s.tick_count + s.ticks_to_perform time }

/-- `Simulation::do_draw`: `self.objects.iter().for_each(|o| o.on_draw())`.
Drawing does not touch simulation state; what matters is the sequence of
objects whose `on_draw` runs, accumulated here in invocation order. -/
def Simulation.do_draw (s : Simulation A) : List A :=
  s.objects.foldl (fun acc o => acc ++ [o]) []

/-- `Simulation::do_handle_expiry`: `self.objects.retain(|o| !o.is_expired())`. -/
def Simulation.do_handle_expiry (c : TickDrawExpire A) (s : Simulation A) :
    Simulation A :=
  { s with objects := s.objects.filter (fun o => !c.is_expired o) }

/-- `Simulation::add_object`: `self.objects.push(boxed)`. -/
def Simulation.add_object (s : Simulation A) (o : A) : Simulation A :=
  { s with objects := s.objects ++ [o] }

/-- Folding `do_tick` over a sequence of wall-clock times, propagating the
panic case. -/
def do_ticks (c : TickDrawExpire A) (s : Simulation A) : List ℚ → Option (Simulation A)
  | [] => some s
  | t :: ts => (s.do_tick c t).bind (fun s' => do_ticks c s' ts)

/-- The public operations the driver loop performs on a `Simulation`
(accessors excluded: they have no effect on state). -/
inductive Op (A : Type) where
  | add_object (o : A)
  | do_tick (t : ℚ)
  | do_draw
  | do_handle_expiry

/-- One driver-loop operation applied to the simulation state (`do_draw`
takes `&self` and mutates nothing). -/
def apply_op (c : TickDrawExpire A) (s : Simulation A) : Op A → Option (Simulation A)
  | Op.add_object o => some (s.add_object o)
  | Op.do_tick t => s.do_tick c t
  | Op.do_draw => some s
  | Op.do_handle_expiry => some (s.do_handle_expiry c)

/-- A sequence of driver-loop operations, propagating the panic case. -/
def run_ops (c : TickDrawExpire A) (s : Simulation A) : List (Op A) → Option (Simulation A)
  | [] => some s
  | op :: ops => (apply_op c s op).bind (fun s' => run_ops c s' ops)

/-- The wall-clock times fed to `do_tick` in an operation sequence, in order. -/
def tick_times : List (Op A) → List ℚ
  | [] => []
  | Op.do_tick t :: ops => t :: tick_times ops
  | _ :: ops => tick_times ops

/-- A trivial object for closed instantiations. -/
def unitContract : TickDrawExpire Unit :=
  { on_tick := fun _ u => u, is_expired := fun _ => false }

/-- A counting object: its state records how many times its `Tick` handler
has been invoked. -/
def countContract : TickDrawExpire ℕ :=
  { on_tick := fun _ n => n + 1, is_expired := fun _ => false }

/-! Constants of `main.rs` (exact rational values of the float literals). -/

def BALL_EXPIRY_TIME : ℚ := 2
def FLOOR_Y : ℚ := 500
def GRAVITY_MULTIPLIER : ℚ := 40
def DAMPENING_MULTIPLIER : ℚ := 4 / 5
def EARTH_ACCELERATION_M_PER_S : ℚ := 49 / 5

/-- `mq::Vec2`, over exact rationals. -/
structure Vec2 where
  x : ℚ
  y : ℚ
deriving DecidableEq, Repr

/-- `mq::Color` (inert for the verified claims). -/
structure Color where
  r : ℚ
  g : ℚ
  b : ℚ
  a : ℚ
deriving DecidableEq, Repr

/-- `struct Ball` from `main.rs`. -/
structure Ball where
  pos : Vec2
  velocity : Vec2
  radius : ℚ
  color : Color
  time_on_floor : ℚ
deriving DecidableEq, Repr

/-- The first two statements of `Ball::on_tick`:
`self.velocity.y += (tick_len_seconds * EARTH_ACCELERATION_M_PER_S * GRAVITY_MULTIPLIER) as f32;`
then `self.pos += self.velocity * tick_len_seconds as f32;` (with the
already-updated velocity). -/
def Ball.apply_gravity_and_move (b : Ball) (tick_len_seconds : ℚ) : Ball :=
  { b with
    velocity :=
      { b.velocity with
        y := b.velocity.y
          + tick_len_seconds * EARTH_ACCELERATION_M_PER_S * GRAVITY_MULTIPLIER },
    pos :=
      { x := b.pos.x + b.velocity.x * tick_len_seconds,
        y := b.pos.y
          + (b.velocity.y
              + tick_len_seconds * EARTH_ACCELERATION_M_PER_S * GRAVITY_MULTIPLIER)
            * tick_len_seconds } }

/-- The floor-collision statement of `Ball::on_tick`:
`if self.pos.y > FLOOR_Y { self.pos.y = FLOOR_Y; self.velocity.y *= -DAMPENING_MULTIPLIER; self.time_on_floor += tick_len_seconds; }`. -/
def Ball.handle_floor (b : Ball) (tick_len_seconds : ℚ) : Ball :=
  if FLOOR_Y < b.pos.y then
    { b with
      pos := { b.pos with y := FLOOR_Y },
      velocity := { b.velocity with y := b.velocity.y * (-DAMPENING_MULTIPLIER) },
      time_on_floor := b.time_on_floor + tick_len_seconds }
  else
    b

/-- The wall-collision statement of `Ball::on_tick`:
`if self.pos.x > 500. || self.pos.x < 200. { self.pos.x = self.pos.x.clamp(200., 500.); self.velocity.x *= -DAMPENING_MULTIPLIER; }`
(`f32::clamp(lo, hi)` is `min hi (max lo x)`). -/
def Ball.handle_walls (b : Ball) : Ball :=
  if 500 < b.pos.x ∨ b.pos.x < 200 then
    { b with
      pos := { b.pos with x := min 500 (max 200 b.pos.x) },
      velocity := { b.velocity with x := b.velocity.x * (-DAMPENING_MULTIPLIER) } }
  else
    b

/-- `impl Tick for Ball::on_tick`: the statements above run in order on the
mutable `self`. -/
def Ball.on_tick (b : Ball) (tick_len_seconds : ℚ) : Ball :=
  ((b.apply_gravity_and_move tick_len_seconds).handle_floor tick_len_seconds).handle_walls

/-- `impl Expire for Ball::is_expired`: `self.time_on_floor >= BALL_EXPIRY_TIME`. -/
def Ball.is_expired (b : Ball) : Bool :=
  decide (BALL_EXPIRY_TIME ≤ b.time_on_floor)

/-- A sequence of tick-handler invocations on a `Ball`. -/
def Ball.run_ticks (b : Ball) (ls : List ℚ) : Ball :=
  ls.foldl Ball.on_tick b

/-- A concrete scheduler state for closed instantiations: tick length 1,
one counting object, tick count 0. -/
def countSim : Simulation ℕ :=
  { seconds_per_tick := 1, objects := [0], tick_count := 0 }

/-- `Modelled from the spec:` the spec's guarded constructor
("fails (or must be guarded by the caller) if `seconds_per_tick <= 0`"),
absent from the source, for comparison with `Simulation.new`. -/
def new_checked (A : Type) (seconds_per_tick : ℚ) : Option (Simulation A) :=
  if seconds_per_tick ≤ 0 then none else some (Simulation.new A seconds_per_tick)

/-! ## Basic lemmas about the scheduler -/

theorem expected_tick_count_def (s : Simulation A) (t : ℚ) :
    s.expected_tick_count t = (Int.floor (t / s.seconds_per_tick)).toNat := rfl

/-- `do_tick` when the `usize` subtraction does not underflow. -/
theorem do_tick_eq_some (c : TickDrawExpire A) (s : Simulation A) (t : ℚ)
    (h : s.tick_count ≤ s.expected_tick_count t) :
    s.do_tick c t =
      some { s with
             objects := tick_passes (c.on_tick s.seconds_per_tick)
                          (s.ticks_to_perform t + 1) s.objects,
             tick_count := s.expected_tick_count t } := by
  unfold Simulation.do_tick
  rw [if_neg (not_lt.2 h)]
  have : s.tick_count + s.ticks_to_perform t = s.expected_tick_count t := by
    unfold Simulation.ticks_to_perform
    omega
  rw [this]

/-- `do_tick` panics (usize underflow) when wall time has regressed past a
tick boundary. -/
theorem do_tick_eq_none (c : TickDrawExpire A) (s : Simulation A) (t : ℚ)
    (h : s.expected_tick_count t < s.tick_count) :
    s.do_tick c t = none := by
  unfold Simulation.do_tick
  exact if_pos h

theorem tick_passes_eq_map_iterate (f : A → A) (n : ℕ) (os : List A) :
    tick_passes f n os = os.map f^[n] := by
  induction n generalizing os with
  | zero => simp [tick_passes]
  | succ n ih =>
      rw [tick_passes, ih, List.map_map, ← Function.iterate_succ]

example : tick_passes (fun n => n + 1) 3 [0, 5] = [3, 8] := by decide

theorem tick_passes_length (f : A → A) (n : ℕ) (os : List A) :
    (tick_passes f n os).length = os.length := by
  rw [tick_passes_eq_map_iterate, List.length_map]

/-- `expected_tick_count` depends on the state only through
`seconds_per_tick`. -/
theorem expected_tick_count_congr {s s' : Simulation A}
    (h : s'.seconds_per_tick = s.seconds_per_tick) (t : ℚ) :
    s'.expected_tick_count t = s.expected_tick_count t := by
  rw [expected_tick_count_def, expected_tick_count_def, h]

/-- With a positive tick length, `expected_tick_count` is monotone in the
wall-clock time. -/
theorem expected_tick_count_mono (s : Simulation A)
    (hspt : 0 < s.seconds_per_tick) {t t' : ℚ} (h : t ≤ t') :
    s.expected_tick_count t ≤ s.expected_tick_count t' := by
  rw [expected_tick_count_def, expected_tick_count_def]
  exact Int.toNat_le_toNat (Int.floor_le_floor (by
    exact div_le_div_of_nonneg_right h hspt.le))

/-- Main run lemma behind tick accounting: starting from a state not ahead
of the first wall-clock value, a non-decreasing sequence of `do_tick`
calls never panics and lands exactly on the floor of the last value. -/
theorem do_ticks_run (c : TickDrawExpire A) (s : Simulation A) (ts : List ℚ)
    (hspt : 0 < s.seconds_per_tick) (hne : ts ≠ [])
    (hmono : ts.Chain' (fun a b => a ≤ b))
    (hstart : s.tick_count ≤ s.expected_tick_count (ts.head hne)) :
    ∃ s', do_ticks c s ts = some s'
      ∧ s'.tick_count = s.expected_tick_count (ts.getLast hne)
      ∧ s'.seconds_per_tick = s.seconds_per_tick := by
  induction ts generalizing s with
  | nil => exact absurd rfl hne
  | cons t rest ih =>
      have hhead : (t :: rest).head hne = t := rfl
      rw [hhead] at hstart
      have hstep := do_tick_eq_some c s t hstart
      set s1 : Simulation A :=
        { s with
          objects := tick_passes (c.on_tick s.seconds_per_tick)
                       (s.ticks_to_perform t + 1) s.objects,
          tick_count := s.expected_tick_count t } with hs1
      have hspt1 : s1.seconds_per_tick = s.seconds_per_tick := rfl
      have htc1 : s1.tick_count = s.expected_tick_count t := rfl
      cases rest with
      | nil =>
          refine ⟨s1, ?_, ?_, hspt1⟩
          · simp only [do_ticks, hstep, Option.some_bind]
          · rw [htc1]
            rfl
      | cons t2 rest2 =>
          have hne2 : (t2 :: rest2) ≠ ([] : List ℚ) := by simp
          have hmono2 : (t2 :: rest2).Chain' (fun a b => a ≤ b) :=
            (List.chain'_cons.mp hmono).2
          have htle : t ≤ t2 := (List.chain'_cons.mp hmono).1
          have hstart2 : s1.tick_count ≤ s1.expected_tick_count ((t2 :: rest2).head hne2) := by
            rw [htc1, expected_tick_count_congr hspt1]
            exact expected_tick_count_mono s hspt htle
          have hspt2 : 0 < s1.seconds_per_tick := by rw [hspt1]; exact hspt
          obtain ⟨s', hrun, htc, hsp⟩ := ih s1 hspt2 hne2 hmono2 hstart2
          refine ⟨s', ?_, ?_, by rw [hsp, hspt1]⟩
          · simp only [do_ticks, hstep, Option.some_bind]
            exact hrun
          · rw [htc, expected_tick_count_congr hspt1]
            have : (t :: t2 :: rest2).getLast hne = (t2 :: rest2).getLast hne2 := by
              simp [List.getLast_cons]
            rw [this]

/-! ## Claim theorems -/

/-- C1.  Tick accounting: for every non-decreasing sequence of elapsed
wall-clock values (elapsed time is non-negative), calling `do_tick` on each
in order on a freshly constructed `Simulation` with positive
`seconds_per_tick` succeeds and leaves `get_tick_count` equal to
`floor(t_last / seconds_per_tick)`. -/
theorem tick_accounting (A : Type) (c : TickDrawExpire A) (spt : ℚ)
    (ts : List ℚ) (hspt : 0 < spt) (hne : ts ≠ [])
    (hmono : ts.Chain' (fun a b => a ≤ b)) (hnn : ∀ t ∈ ts, 0 ≤ t) :
    ∃ s', do_ticks c (Simulation.new A spt) ts = some s'
      ∧ (s'.get_tick_count : ℤ) = Int.floor (ts.getLast hne / spt) := by
  obtain ⟨s', hrun, htc, _⟩ :=
    do_ticks_run c (Simulation.new A spt) ts hspt hne hmono (Nat.zero_le _)
  refine ⟨s', hrun, ?_⟩
  rw [Simulation.get_tick_count, htc, expected_tick_count_def]
  have hlast : 0 ≤ ts.getLast hne := hnn _ (List.getLast_mem hne)
  have hfl : (0:ℤ) ≤ Int.floor (ts.getLast hne / (Simulation.new A spt).seconds_per_tick) :=
    Int.floor_nonneg.mpr (div_nonneg hlast (by exact hspt.le))
  rw [Int.toNat_of_nonneg hfl]
  rfl

theorem tick_accounting_witness :
    ∃ s', do_ticks unitContract (Simulation.new Unit 1) [0, 2] = some s'
      ∧ (s'.get_tick_count : ℤ) = 2 := by
  obtain ⟨s', hrun, htc⟩ := tick_accounting Unit unitContract 1 [0, 2]
    (by norm_num) (by simp)
    (by simp only [List.chain'_cons, List.chain'_singleton, and_true]; norm_num)
    (by intro t ht; fin_cases ht <;> norm_num)
  refine ⟨s', hrun, ?_⟩
  rw [htc]
  norm_num [List.getLast]

/-- C2.  Catch-up correctness: whenever `floor(t / spt) >= tick_count`,
`do_tick` succeeds, performs exactly `ticks_to_perform + 1` full passes —
each object's new state is its tick handler iterated
`ticks_to_perform + 1` times (at least one pass always happens) — and in
particular a single call with `t = 10 * seconds_per_tick` from tick count
0 applies every object's handler exactly 11 times. -/
theorem catch_up_correctness (A : Type) (c : TickDrawExpire A)
    (s : Simulation A) (t : ℚ) (h : s.tick_count ≤ s.expected_tick_count t) :
    ∃ s', s.do_tick c t = some s'
      ∧ s'.objects = s.objects.map (c.on_tick s.seconds_per_tick)^[s.ticks_to_perform t + 1]
      ∧ 1 ≤ s.ticks_to_perform t + 1
      ∧ (0 < s.seconds_per_tick → s.tick_count = 0 → t = 10 * s.seconds_per_tick →
          s'.objects = s.objects.map (c.on_tick s.seconds_per_tick)^[11]) := by
  refine ⟨_, do_tick_eq_some c s t h, ?_, Nat.le_add_left 1 _, ?_⟩
  · exact tick_passes_eq_map_iterate _ _ _
  · intro hspt h0 ht
    rw [tick_passes_eq_map_iterate]
    have hexp : s.expected_tick_count t = 10 := by
      rw [expected_tick_count_def, ht,
        mul_div_cancel_right₀ (10:ℚ) (ne_of_gt hspt),
        show ((10:ℚ)) = ((10:ℤ) : ℚ) by norm_num, Int.floor_intCast]
      rfl
    have : s.ticks_to_perform t = 10 := by
      unfold Simulation.ticks_to_perform
      rw [hexp, h0]
    rw [this]

theorem catch_up_correctness_witness :
    ∃ s', countSim.do_tick countContract 10 = some s' ∧ s'.objects = [11] := by
  obtain ⟨s', hsome, hobj, hone, hten⟩ :=
    catch_up_correctness ℕ countContract countSim 10 (Nat.zero_le _)
  refine ⟨s', hsome, ?_⟩
  rw [hten (by norm_num [countSim]) rfl (by norm_num [countSim])]
  simp only [countSim, countContract, List.map_cons, List.map_nil]
  norm_num [Function.iterate_succ_apply]

theorem toNat_floor_helper {q : ℚ} {n : ℕ} (h : Int.floor q = (n : ℤ)) :
    (Int.floor q).toNat = n := by
  rw [h]
  exact Int.toNat_natCast n

theorem tick_passes_nil (f : A → A) (n : ℕ) : tick_passes f n [] = [] := by
  rw [tick_passes_eq_map_iterate]
  rfl

/-- C3.  The spec's concrete scenario with `seconds_per_tick = 0.01` on an
empty fresh simulation: `do_tick 0` performs `0 + 1 = 1` pass and leaves the
tick count 0 (the state is unchanged), and the following `do_tick 0.025`
computes `ticks_to_perform = 2`, performs `2 + 1 = 3` passes, and leaves the
tick count 2. -/
theorem concrete_scenario (A : Type) (c : TickDrawExpire A) :
    (Simulation.new A (1/100)).do_tick c 0 = some (Simulation.new A (1/100))
    ∧ (Simulation.new A (1/100)).ticks_to_perform 0 + 1 = 1
    ∧ (Simulation.new A (1/100)).get_tick_count = 0
    ∧ (Simulation.new A (1/100)).do_tick c (1/40)
        = some { seconds_per_tick := 1/100, objects := [], tick_count := 2 }
    ∧ (Simulation.new A (1/100)).ticks_to_perform (1/40) = 2
    ∧ (Simulation.new A (1/100)).ticks_to_perform (1/40) + 1 = 3
    ∧ ({ seconds_per_tick := 1/100, objects := [], tick_count := 2 } :
        Simulation A).get_tick_count = 2 := by
  have e0 : (Simulation.new A (1/100)).expected_tick_count 0 = 0 := by
    rw [expected_tick_count_def, zero_div, Int.floor_zero]
    rfl
  have e1 : (Simulation.new A (1/100)).expected_tick_count (1/40) = 2 := by
    rw [expected_tick_count_def]
    refine toNat_floor_helper ?_
    show Int.floor ((1:ℚ)/40 / (1/100)) = ((2:ℕ):ℤ)
    norm_num
  have ttp0 : (Simulation.new A (1/100)).ticks_to_perform 0 = 0 := by
    unfold Simulation.ticks_to_perform
    rw [e0]
    rfl
  have ttp1 : (Simulation.new A (1/100)).ticks_to_perform (1/40) = 2 := by
    unfold Simulation.ticks_to_perform
    rw [e1]
    rfl
  refine ⟨?_, by rw [ttp0], rfl, ?_, ttp1, by rw [ttp1], rfl⟩
  · rw [do_tick_eq_some c _ 0 (Nat.zero_le _), ttp0, e0]
    rfl
  · rw [do_tick_eq_some c _ (1/40) (Nat.zero_le _), ttp1, e1]
    rfl

/-- C4 counterexample.  The source constructor `Simulation::new` does not
fail or reject a non-positive `seconds_per_tick`: at `-1` it succeeds and
returns an ordinary state storing `-1`, whereas the spec-modelled guarded
constructor `new_checked` rejects it. -/
theorem construct_accepts_nonpositive :
    Simulation.new Unit (-1) =
      { seconds_per_tick := -1, objects := [], tick_count := 0 }
    ∧ new_checked Unit (-1) = none := by
  refine ⟨rfl, ?_⟩
  unfold new_checked
  rw [if_pos]
  norm_num

/-- C4 amended.  `Simulation::new` accepts every `seconds_per_tick`
(including non-positive values — there is no guard in the source); for
every argument the resulting simulation has tick count 0, an empty object
collection, and stores the argument unchanged. -/
theorem construct_unguarded (A : Type) (spt : ℚ) :
    (Simulation.new A spt).tick_count = 0
    ∧ (Simulation.new A spt).objects = []
    ∧ (Simulation.new A spt).seconds_per_tick = spt :=
  ⟨rfl, rfl, rfl⟩

/-- C5 counterexample.  A regressed wall-clock value is neither rejected
nor clamped: after `do_tick 2` from a fresh simulation with tick length 1
(tick count reaches 2), the call `do_tick 0` hits the underflowing `usize`
subtraction `expected_tick_count - tick_count` (debug panic / release
wraparound), modelled as `none` — evaluation is not total. -/
theorem do_tick_regression_panics :
    do_ticks unitContract (Simulation.new Unit 1) [2, 0] = none := by
  have h1 := do_tick_eq_some unitContract (Simulation.new Unit 1) 2 (Nat.zero_le _)
  simp only [do_ticks, h1, Option.some_bind]
  rw [do_tick_eq_none]
  · rfl
  · have hz : ∀ s : Simulation Unit, s.expected_tick_count 0 = 0 := by
      intro s
      rw [expected_tick_count_def, zero_div, Int.floor_zero]
      rfl
    rw [hz]
    show 0 < (Simulation.new Unit 1).expected_tick_count 2
    have e2 : (Simulation.new Unit 1).expected_tick_count 2 = 2 := by
      rw [expected_tick_count_def]
      refine toNat_floor_helper ?_
      show Int.floor ((2:ℚ) / 1) = ((2:ℕ):ℤ)
      norm_num
    rw [e2]
    norm_num

/-- C5 amended.  When the wall-clock input has regressed past a tick
boundary (`floor(t / seconds_per_tick) < tick_count`), `do_tick` performs
the underflowing `usize` subtraction and panics (modelled `none`); the
source neither rejects the input nor clamps the negative difference. -/
theorem do_tick_regression_behavior (A : Type) (c : TickDrawExpire A)
    (s : Simulation A) (t : ℚ) (h : s.expected_tick_count t < s.tick_count) :
    s.do_tick c t = none :=
  do_tick_eq_none c s t h

theorem do_tick_regression_behavior_witness :
    Simulation.do_tick unitContract
      { seconds_per_tick := 1, objects := [], tick_count := 2 } 0 = none := by
  refine do_tick_regression_behavior Unit unitContract _ 0 ?_
  have hz : ({ seconds_per_tick := 1, objects := [], tick_count := 2 } :
      Simulation Unit).expected_tick_count 0 = 0 := by
    rw [expected_tick_count_def, zero_div, Int.floor_zero]
    rfl
  rw [hz]
  norm_num

/-- Run lemma for whole operation sequences: as long as every wall-clock
value fed to `do_tick` is still ahead of the current tick count (which
pairwise-ordered inputs maintain), the run succeeds, `seconds_per_tick` is
preserved, and `tick_count` never decreases. -/
theorem run_ops_go (c : TickDrawExpire A) (s : Simulation A) (ops : List (Op A))
    (hspt : 0 < s.seconds_per_tick)
    (hpair : (tick_times ops).Pairwise (fun a b => a ≤ b))
    (hstart : ∀ t ∈ tick_times ops, s.tick_count ≤ s.expected_tick_count t) :
    ∃ s', run_ops c s ops = some s'
      ∧ s'.seconds_per_tick = s.seconds_per_tick
      ∧ s.tick_count ≤ s'.tick_count := by
  induction ops generalizing s with
  | nil => exact ⟨s, rfl, rfl, le_refl _⟩
  | cons op rest ih =>
      cases op with
      | add_object o =>
          obtain ⟨s', h1, h2, h3⟩ := ih (s.add_object o) hspt hpair hstart
          exact ⟨s', by simpa only [run_ops, apply_op, Option.some_bind] using h1, h2, h3⟩
      | do_draw =>
          obtain ⟨s', h1, h2, h3⟩ := ih s hspt hpair hstart
          exact ⟨s', by simpa only [run_ops, apply_op, Option.some_bind] using h1, h2, h3⟩
      | do_handle_expiry =>
          obtain ⟨s', h1, h2, h3⟩ := ih (s.do_handle_expiry c) hspt hpair hstart
          exact ⟨s', by simpa only [run_ops, apply_op, Option.some_bind] using h1, h2, h3⟩
      | do_tick t =>
          have htmem : t ∈ tick_times (Op.do_tick t :: rest) := List.mem_cons_self t _
          have hle : s.tick_count ≤ s.expected_tick_count t := hstart t htmem
          have hstep := do_tick_eq_some c s t hle
          set s1 : Simulation A :=
            { s with
              objects := tick_passes (c.on_tick s.seconds_per_tick)
                           (s.ticks_to_perform t + 1) s.objects,
              tick_count := s.expected_tick_count t } with hs1
          have hpair1 : (tick_times rest).Pairwise (fun a b => a ≤ b) :=
            (List.pairwise_cons.mp hpair).2
          have hfut : ∀ t' ∈ tick_times rest, t ≤ t' :=
            (List.pairwise_cons.mp hpair).1
          have hstart1 : ∀ t' ∈ tick_times rest, s1.tick_count ≤ s1.expected_tick_count t' := by
            intro t' ht'
            have : s.expected_tick_count t ≤ s.expected_tick_count t' :=
              expected_tick_count_mono s hspt (hfut t' ht')
            exact this
          obtain ⟨s', h1, h2, h3⟩ := ih s1 hspt hpair1 hstart1
          refine ⟨s', ?_, h2, ?_⟩
          · simp only [run_ops, apply_op, hstep, Option.some_bind]
            exact h1
          · exact le_trans (le_trans hle (le_refl _)) h3

/-- C6.  Operation-sequence invariants: on any driver sequence of
`add_object` / `do_tick` (with non-decreasing wall-clock inputs) /
`do_draw` / `do_handle_expiry` from a fresh simulation with positive tick
length, the run succeeds; `seconds_per_tick` never changes (globally over
the run, and per successful operation), `tick_count` is monotonically
non-decreasing, `do_tick` is the only operation changing it — by exactly
`ticks_to_perform` — and `add_object`, `do_handle_expiry`, `do_draw`
preserve it exactly. -/
theorem scheduler_invariants (A : Type) (c : TickDrawExpire A) (spt : ℚ)
    (ops : List (Op A)) (hspt : 0 < spt)
    (hmono : (tick_times ops).Chain' (fun a b => a ≤ b)) :
    (∃ s', run_ops c (Simulation.new A spt) ops = some s'
        ∧ s'.seconds_per_tick = spt
        ∧ (Simulation.new A spt).tick_count ≤ s'.tick_count)
    ∧ (∀ (s : Simulation A) (o : A),
        (s.add_object o).tick_count = s.tick_count
        ∧ (s.add_object o).seconds_per_tick = s.seconds_per_tick)
    ∧ (∀ s : Simulation A,
        (s.do_handle_expiry c).tick_count = s.tick_count
        ∧ (s.do_handle_expiry c).seconds_per_tick = s.seconds_per_tick)
    ∧ (∀ s : Simulation A, apply_op c s Op.do_draw = some s)
    ∧ (∀ (s s' : Simulation A) (t : ℚ), s.do_tick c t = some s' →
        s'.tick_count = s.tick_count + s.ticks_to_perform t
        ∧ s'.seconds_per_tick = s.seconds_per_tick
        ∧ s.tick_count ≤ s'.tick_count) := by
  refine ⟨?_, fun s o => ⟨rfl, rfl⟩, fun s => ⟨rfl, rfl⟩, fun s => rfl, ?_⟩
  · have hpair : (tick_times ops).Pairwise (fun a b => a ≤ b) :=
      List.chain'_iff_pairwise.mp hmono
    exact run_ops_go c (Simulation.new A spt) ops hspt hpair
      (fun t _ => Nat.zero_le _)
  · intro s s' t h
    rw [Simulation.do_tick] at h
    by_cases hc : s.expected_tick_count t < s.tick_count
    · rw [if_pos hc] at h
      exact absurd h (by simp)
    · rw [if_neg hc] at h
      have := Option.some_injective _ h
      refine ⟨?_, ?_, ?_⟩
      · rw [← this]
      · rw [← this]
      · rw [← this]
        exact Nat.le_add_right _ _

theorem scheduler_invariants_witness :
    (∃ s', run_ops countContract (Simulation.new ℕ 1)
        [Op.add_object 0, Op.do_tick 2, Op.do_draw, Op.do_handle_expiry] = some s'
      ∧ s'.seconds_per_tick = 1
      ∧ (Simulation.new ℕ 1).tick_count ≤ s'.tick_count) := by
  obtain ⟨hrun, _⟩ := scheduler_invariants ℕ countContract 1
    [Op.add_object 0, Op.do_tick 2, Op.do_draw, Op.do_handle_expiry]
    (by norm_num)
    (by
      show List.Chain' (fun a b => a ≤ b) [2]
      exact List.chain'_singleton 2)
  exact hrun

theorem length_filter_not (p : A → Bool) (l : List A) :
    (l.filter (fun a => !p a)).length = l.length - l.countP p := by
  induction l with
  | nil => rfl
  | cons a l ih =>
    have hle : l.countP p ≤ l.length := l.countP_le_length p
    by_cases h : p a
    · simp [List.filter_cons, h, List.countP_cons, ih]
    · simp [List.filter_cons, h, List.countP_cons, ih]
      omega

theorem foldl_append_singleton (l acc : List A) :
    l.foldl (fun acc o => acc ++ [o]) acc = acc ++ l := by
  induction l generalizing acc with
  | nil => simp
  | cons a l ih => simp [List.foldl_cons, ih]

/-- `do_draw` dispatches `on_draw` over exactly the current objects, in
collection order. -/
theorem do_draw_eq_objects (s : Simulation A) : s.do_draw = s.objects := by
  unfold Simulation.do_draw
  rw [foldl_append_singleton]
  rfl

/-- Inversion of a successful `do_tick`: the subtraction did not underflow
and the result state is the catch-up-loop update. -/
theorem do_tick_some_inv (c : TickDrawExpire A) (s : Simulation A) (t : ℚ)
    (s' : Simulation A) (h : s.do_tick c t = some s') :
    s.tick_count ≤ s.expected_tick_count t
    ∧ s' = { s with
             objects := tick_passes (c.on_tick s.seconds_per_tick)
                          (s.ticks_to_perform t + 1) s.objects,
             tick_count := s.tick_count + s.ticks_to_perform t } := by
  rw [Simulation.do_tick] at h
  by_cases hc : s.expected_tick_count t < s.tick_count
  · rw [if_pos hc] at h
    exact absurd h (by simp)
  · rw [if_neg hc] at h
    exact ⟨Nat.le_of_not_lt hc, (Option.some_injective _ h).symm⟩

/-- C7.  Expiry removal: `do_handle_expiry` removes in one pass exactly
the objects whose `is_expired` currently returns true; the object count
drops by exactly the number of expired objects; every object still in the
collection afterwards (hence everything a later tick pass or draw pass
touches) is non-expired; and `do_tick` never removes objects (expiry is
not evaluated there). -/
theorem expiry_removal (A : Type) (c : TickDrawExpire A) (s : Simulation A) :
    (s.do_handle_expiry c).objects = s.objects.filter (fun o => !c.is_expired o)
    ∧ (s.do_handle_expiry c).get_object_count
        = s.get_object_count - s.objects.countP (fun o => c.is_expired o)
    ∧ (∀ o ∈ (s.do_handle_expiry c).objects, c.is_expired o = false)
    ∧ (∀ o ∈ (s.do_handle_expiry c).do_draw, c.is_expired o = false)
    ∧ (∀ (t : ℚ) (s' : Simulation A), s.do_tick c t = some s' →
        s'.get_object_count = s.get_object_count) := by
  have hobj : (s.do_handle_expiry c).objects
      = s.objects.filter (fun o => !c.is_expired o) := rfl
  have hmem : ∀ o ∈ (s.do_handle_expiry c).objects, c.is_expired o = false := by
    intro o ho
    rw [hobj] at ho
    have := (List.mem_filter.mp ho).2
    simpa using this
  refine ⟨hobj, ?_, hmem, ?_, ?_⟩
  · show (s.objects.filter (fun o => !c.is_expired o)).length = _
    rw [length_filter_not]
    rfl
  · intro o ho
    rw [do_draw_eq_objects] at ho
    exact hmem o ho
  · intro t s' h
    obtain ⟨-, rfl⟩ := do_tick_some_inv c s t s' h
    show (tick_passes _ _ s.objects).length = s.objects.length
    exact tick_passes_length _ _ _

/-- An expiring counter object: its `Tick` handler increments its state,
and it reports expired once the count reaches 5. -/
def expireContract : TickDrawExpire ℕ :=
  { on_tick := fun _ n => n + 1, is_expired := fun n => decide (5 ≤ n) }

theorem expiry_removal_witness :
    (Simulation.do_handle_expiry expireContract
        { seconds_per_tick := 1, objects := [1, 7], tick_count := 0 }).objects = [1]
    ∧ (Simulation.do_handle_expiry expireContract
        { seconds_per_tick := 1, objects := [1, 7], tick_count := 0 }).get_object_count = 1
    ∧ (∀ (s' : Simulation ℕ),
        Simulation.do_tick expireContract
          { seconds_per_tick := 1, objects := [1, 7], tick_count := 0 } 0 = some s' →
        s'.get_object_count = 2) := by
  obtain ⟨h1, h2, h3, h4, h5⟩ := expiry_removal ℕ expireContract
    { seconds_per_tick := 1, objects := [1, 7], tick_count := 0 }
  refine ⟨?_, ?_, ?_⟩
  · rw [h1]
    rfl
  · rw [h2]
    rfl
  · intro s' h
    exact h5 0 s' h

/-- C8.  Order preservation: `add_object` appends at the end of the
collection (and of the draw-dispatch order); the draw-dispatch order is
exactly the collection order; `do_handle_expiry` keeps survivors in their
relative order (a sublist of the collection); and a successful `do_tick`
updates each object in place — position `i` afterwards holds the ticked
state of the object that was at position `i`. -/
theorem order_preservation (A : Type) (c : TickDrawExpire A) (s : Simulation A)
    (o : A) (t : ℚ) (s' : Simulation A) (h : s.do_tick c t = some s') :
    (s.add_object o).objects = s.objects ++ [o]
    ∧ (s.add_object o).do_draw = s.do_draw ++ [o]
    ∧ s.do_draw = s.objects
    ∧ (s.do_handle_expiry c).objects.Sublist s.objects
    ∧ s'.objects.length = s.objects.length
    ∧ (∀ i : ℕ, s'.objects[i]?
        = (s.objects[i]?).map (c.on_tick s.seconds_per_tick)^[s.ticks_to_perform t + 1]) := by
  obtain ⟨-, rfl⟩ := do_tick_some_inv c s t s' h
  refine ⟨rfl, ?_, do_draw_eq_objects s, ?_, ?_, ?_⟩
  · rw [do_draw_eq_objects, do_draw_eq_objects]
    rfl
  · exact List.filter_sublist s.objects
  · exact tick_passes_length _ _ _
  · intro i
    show (tick_passes _ _ s.objects)[i]? = _
    rw [tick_passes_eq_map_iterate, List.getElem?_map]

theorem order_preservation_witness :
    (Simulation.add_object countSim 5).objects = [0, 5]
    ∧ (Simulation.do_handle_expiry countContract countSim).objects.Sublist
        countSim.objects := by
  have h := do_tick_eq_some countContract countSim 0 (Nat.zero_le _)
  obtain ⟨h1, h2, h3, h4, h5, h6⟩ :=
    order_preservation ℕ countContract countSim 5 0 _ h
  exact ⟨h1, h4⟩

theorem handle_walls_time_on_floor (b : Ball) :
    b.handle_walls.time_on_floor = b.time_on_floor := by
  unfold Ball.handle_walls
  split <;> rfl

theorem handle_floor_time_on_floor_le (b : Ball) (l : ℚ) (hl : 0 ≤ l) :
    b.time_on_floor ≤ (b.handle_floor l).time_on_floor := by
  unfold Ball.handle_floor
  split
  · show b.time_on_floor ≤ b.time_on_floor + l
    linarith
  · exact le_refl _

/-- With a non-negative tick length, `Ball::on_tick` never decreases
`time_on_floor` (the only assignment adds `tick_len_seconds`). -/
theorem on_tick_time_on_floor_le (b : Ball) (l : ℚ) (hl : 0 ≤ l) :
    b.time_on_floor ≤ (b.on_tick l).time_on_floor := by
  unfold Ball.on_tick
  rw [handle_walls_time_on_floor]
  exact handle_floor_time_on_floor_le (b.apply_gravity_and_move l) l hl

/-- C9.  Expiry monotonicity for `Ball`: once `is_expired` is true, it
stays true across any further sequence of `on_tick` calls with positive
tick lengths. -/
theorem ball_expiry_monotonic (b : Ball) (h : b.is_expired = true)
    (ls : List ℚ) (hl : ∀ l ∈ ls, 0 < l) :
    (b.run_ticks ls).is_expired = true := by
  induction ls generalizing b with
  | nil => exact h
  | cons l rest ih =>
      have hstep : (b.on_tick l).is_expired = true := by
        rw [Ball.is_expired] at h ⊢
        have hexp : BALL_EXPIRY_TIME ≤ b.time_on_floor := of_decide_eq_true h
        have hmono := on_tick_time_on_floor_le b l (hl l (List.mem_cons_self l rest)).le
        exact decide_eq_true (le_trans hexp hmono)
      exact ih (b.on_tick l) hstep (fun l' hl' => hl l' (List.mem_cons_of_mem l hl'))

theorem ball_expiry_monotonic_witness :
    (Ball.run_ticks
      { pos := { x := 300, y := 100 }, velocity := { x := 0, y := 0 },
        radius := 15, color := { r := 1, g := 1, b := 1, a := 1 },
        time_on_floor := 2 } [1]).is_expired = true := by
  refine ball_expiry_monotonic _ ?_ [1] ?_
  · rw [Ball.is_expired]
    norm_num [BALL_EXPIRY_TIME]
  · intro l hl
    rw [List.mem_singleton] at hl
    rw [hl]
    norm_num

/-- C10.  Spatial invariant of `Ball::on_tick`: for any start state with
`pos.x` inside the walls `[200, 500]` and any non-negative tick length,
the returned state still has `pos.x` inside `[200, 500]`, and its `pos.y`
never exceeds the floor `FLOOR_Y = 500`. -/
theorem ball_spatial_invariant (b : Ball) (t : ℚ) (ht : 0 ≤ t)
    (hx : 200 ≤ b.pos.x ∧ b.pos.x ≤ 500) :
    (200 ≤ (b.on_tick t).pos.x ∧ (b.on_tick t).pos.x ≤ 500)
    ∧ (b.on_tick t).pos.y ≤ FLOOR_Y := by
  unfold Ball.on_tick
  have hy : ((b.apply_gravity_and_move t).handle_floor t).pos.y ≤ FLOOR_Y := by
    unfold Ball.handle_floor
    split
    · exact le_refl FLOOR_Y
    · rename_i h
      exact le_of_not_lt h
  refine ⟨?_, ?_⟩
  · unfold Ball.handle_walls
    split
    · constructor
      · exact le_min (by norm_num) (le_max_left 200 _)
      · exact min_le_left _ _
    · rename_i hwall
      rw [not_or] at hwall
      exact ⟨le_of_not_lt hwall.2, le_of_not_lt hwall.1⟩
  · unfold Ball.handle_walls
    split
    · exact hy
    · exact hy

theorem ball_spatial_invariant_witness :
    (200 ≤ (Ball.on_tick
        { pos := { x := 300, y := 100 }, velocity := { x := 10, y := 10 },
          radius := 15, color := { r := 1, g := 1, b := 1, a := 1 },
          time_on_floor := 0 } 1).pos.x
      ∧ (Ball.on_tick
        { pos := { x := 300, y := 100 }, velocity := { x := 10, y := 10 },
          radius := 15, color := { r := 1, g := 1, b := 1, a := 1 },
          time_on_floor := 0 } 1).pos.x ≤ 500)
    ∧ (Ball.on_tick
        { pos := { x := 300, y := 100 }, velocity := { x := 10, y := 10 },
          radius := 15, color := { r := 1, g := 1, b := 1, a := 1 },
          time_on_floor := 0 } 1).pos.y ≤ FLOOR_Y :=
  ball_spatial_invariant _ 1 (by norm_num) (by constructor <;> norm_num)
